import Mathlib

/-!
Shallow embedding of the agentic-patterns example implementation
(`examples/python-implementation.py`): an in-memory agent registry, a
topic-based message bus, capability-tagged workers and a hierarchical
orchestrator, together with proofs about the claims of the specification.

Modelling conventions:
* Python dicts that preserve insertion order are modelled as association
  lists `List (String × α)`; assignment `d[k] = v` replaces the value in
  place when the key exists and appends otherwise (`dictSet`).
* `datetime.now()` is passed in as an explicit `now : Nat` parameter.
* Values of type `Any` that the program only stores and compares are
  modelled as `String`.
* An exception raised by a piece of Python code is modelled with `Except`:
  `.error` is an exception propagating to the caller.
-/

namespace AgenticPatterns

/-- Mirrors `AgentCapability`.  The `performance_metrics : Dict[str, float]`
field is never read by any modelled operation and floating point numbers are
outside the embedding, so it is omitted. -/
structure AgentCapability where
  name : String
  version : String
  constraints : List (String × String) := []
deriving DecidableEq, Repr

/-- Mirrors `AgentRegistration`. -/
structure AgentRegistration where
  agent_id : String
  capabilities : List AgentCapability
  endpoint : String
  health_endpoint : String
  registered_at : Nat
  last_heartbeat : Nat
  metadata : List (String × String) := []
deriving DecidableEq, Repr

/-- Python ordered-dict assignment `d[k] = v`: replace in place if the key is
present, append otherwise. -/
def dictSet {α : Type} (l : List (String × α)) (k : String) (v : α) :
    List (String × α) :=
  match l with
  | [] => [(k, v)]
  | (k', v') :: rest =>
      if k' == k then (k, v) :: rest else (k', v') :: dictSet rest k v

/-- One step of the capability-index update in `AgentRegistry.register`:
`if name not in index: index[name] = []` followed by
`index[name].append(agent_id)`. -/
def indexAdd (idx : List (String × List String)) (name agent_id : String) :
    List (String × List String) :=
  match idx with
  | [] => [(name, [agent_id])]
  | (k, ids) :: rest =>
      if k == name then (k, ids ++ [agent_id]) :: rest
      else (k, ids) :: indexAdd rest name agent_id

/-- Mirrors the state of `AgentRegistry`: `_agents` and `_capability_index`. -/
structure AgentRegistry where
  agents : List (String × AgentRegistration) := []
  capability_index : List (String × List String) := []
deriving DecidableEq, Repr

/-- Mirrors `AgentRegistry.register`.  Creates the registration record
(`health_endpoint = endpoint + "/health"`, `metadata = metadata or` the empty
dict), stores it under `agent_id`, appends `agent_id` to the index entry of
every capability name, and returns `True`. -/
def AgentRegistry.register (r : AgentRegistry) (agent_id : String)
    (capabilities : List AgentCapability) (endpoint : String)
    (metadata : Option (List (String × String)) := none) (now : Nat := 0) :
    AgentRegistry × Bool :=
  let registration : AgentRegistration :=
    { agent_id := agent_id
      capabilities := capabilities
      endpoint := endpoint
      health_endpoint := endpoint ++ "/health"
      registered_at := now
      last_heartbeat := now
      metadata := metadata.getD [] }
  let agents := dictSet r.agents agent_id registration
  let index :=
    capabilities.foldl (fun ix c => indexAdd ix c.name agent_id)
      r.capability_index
  ({ agents := agents, capability_index := index }, true)

/-- Mirrors `AgentRegistry._matches_constraints`: some capability of the agent
has, for every query key, that exact value in its own constraint map
(`cap.constraints.get(k) == v`; a missing key compares unequal). -/
def AgentRegistry.matches_constraints (agent : AgentRegistration)
    (constraints : List (String × String)) : Bool :=
  agent.capabilities.any fun cap =>
    constraints.all fun kv => cap.constraints.lookup kv.1 == some kv.2

/-- Mirrors `AgentRegistry.discover`.  `constraints = none` models passing
`None`; `if constraints:` in Python is false both for `None` and for the
empty dict, so filtering happens only for `some q` with `q ≠ []`. -/
def AgentRegistry.discover (r : AgentRegistry) (capability : String)
    (constraints : Option (List (String × String)) := none) :
    List AgentRegistration :=
  match r.capability_index.lookup capability with
  | none => []
  | some agent_ids =>
      let agents := agent_ids.filterMap fun aid => r.agents.lookup aid
      match constraints with
      | none => agents
      | some q =>
          if q.isEmpty then agents
          else agents.filter fun a => AgentRegistry.matches_constraints a q

/-! ## Message bus -/

/-- Mirrors `MessageType`. -/
inductive MessageType where
  | request
  | response
  | event
  | command
deriving DecidableEq, Repr

/-- The payloads the program builds: free-form text for demo messages, and the
two structured event payloads published by the orchestrator. -/
inductive MessagePayload where
  | text (s : String)
  | taskAssigned (task_id worker_id : String)
  | taskCompleted (task_id : String) (status : String)
deriving DecidableEq, Repr

/-- Mirrors `Message`.  The auto-generated `id` (a fresh uuid) and the
`timestamp` play no role in any modelled behaviour and are omitted;
`correlation_id` and `headers` keep their defaults everywhere in the program
and are omitted as well. -/
structure Message where
  type : MessageType := .request
  source : String := ""
  destination : String := ""
  payload : MessagePayload
deriving DecidableEq, Repr

/-- A subscriber callback, abstracted by its observable behaviour: a callback
either records the delivery (identified by `id`) or raises. -/
structure BusCallback where
  id : String
  fails : Bool
deriving DecidableEq, Repr

/-- A delivery record: which callback received which message. -/
abbrev Delivery := String × Message

/-- Mirrors the state of `MessageBus`: `_subscribers` and `_queues`. -/
structure MessageBus where
  subscribers : List (String × List BusCallback) := []
  queues : List (String × List Message) := []
deriving DecidableEq, Repr

/-- The delivery loop of `MessageBus.publish`:
`for subscriber in self._subscribers[topic]: await subscriber(message)`.
There is no exception handler around the call, so a raising callback
propagates (`.error`), carrying the deliveries made so far. -/
def deliverAll (subs : List BusCallback) (message : Message)
    (log : List Delivery) : Except (List Delivery) (List Delivery) :=
  match subs with
  | [] => .ok log
  | c :: rest =>
      if c.fails then .error log
      else deliverAll rest message (log ++ [(c.id, message)])

/-- Mirrors `MessageBus.publish`: deliver to every subscriber of the topic in
subscription order, then enqueue on the topic queue if one exists.  An
exception raised by a callback propagates out of `publish` (`.error`),
skipping the remaining subscribers and the queue append. -/
def MessageBus.publish (bus : MessageBus) (topic : String)
    (message : Message) : Except (List Delivery) (MessageBus × List Delivery) :=
  match deliverAll ((bus.subscribers.lookup topic).getD []) message [] with
  | .error log => .error log
  | .ok log =>
      match bus.queues.lookup topic with
      | none => .ok (bus, log)
      | some q =>
          .ok ({ bus with queues := dictSet bus.queues topic (q ++ [message]) },
            log)

/-- Mirrors `MessageBus.subscribe`: create the topic's subscriber list if
missing, then append the callback. -/
def MessageBus.subscribe (bus : MessageBus) (topic : String)
    (callback : BusCallback) : MessageBus :=
  let subs := (bus.subscribers.lookup topic).getD []
  { bus with subscribers := dictSet bus.subscribers topic (subs ++ [callback]) }

/-- Mirrors `MessageBus.create_queue`: create an empty queue for the topic if
none exists (the returned handle aliases the stored queue and is not modelled
separately). -/
def MessageBus.create_queue (bus : MessageBus) (topic : String) : MessageBus :=
  match bus.queues.lookup topic with
  | some _ => bus
  | none => { bus with queues := dictSet bus.queues topic [] }

/-! ## Worker -/

/-- Mirrors `TaskStatus`. -/
inductive TaskStatus where
  | pending
  | in_progress
  | completed
  | failed
deriving DecidableEq, Repr

/-- Mirrors `Task`.  `payload` is opaque data (`Any`), modelled as an optional
string; the auto-generated uuid default for `id` is replaced by an explicit
id supplied at construction. -/
structure Task where
  id : String
  name : String := ""
  payload : Option String := none
  status : TaskStatus := .pending
  assigned_to : Option String := none
  result : Option (String × String) := none
  error : Option String := none
deriving DecidableEq, Repr

/-- Mirrors `Worker`: id, capability names and the busy flag. -/
structure Worker where
  id : String
  capabilities : List String
  current_task : Option Task := none
deriving DecidableEq, Repr

/-- Outcome of the `try` block of `Worker.execute`, which the embedding takes
as an input because the block awaits an external suspension
(`asyncio.sleep`): the block either completes normally, raises an `Exception`
(caught by the `except Exception` clause), or is interrupted by a
`BaseException` that is not an `Exception` — e.g. `asyncio.CancelledError`
injected by `wt.cancel()` — which the clause does not catch. -/
inductive WorkOutcome where
  | success
  | exn (e : String)
  | base (e : String)
deriving DecidableEq, Repr

/-- The caught outcomes of `Worker.execute` (the ones the orchestrator's
dispatch loop can observe as a returned `Task`). -/
inductive ExecOutcome where
  | success
  | failure (e : String)
deriving DecidableEq, Repr

/-- The simulated work of `Worker.execute`'s `try` block: the result value
chosen by `task.name`. -/
def Worker.simulate (w : Worker) (task : Task) : String × String :=
  if task.name == "research" then
    ("findings", "Research completed by " ++ w.id)
  else if task.name == "analysis" then
    ("analysis", "Analysis performed by " ++ w.id)
  else
    ("output", "Task " ++ task.name ++ " completed by " ++ w.id)

/-- The tail of `Worker.execute` after the suspension inside the `try` block:
set the terminal status (and `result` or `error`), then clear
`current_task`. -/
def Worker.finishExec (w : Worker) (task : Task) (outcome : ExecOutcome) :
    Worker × Task :=
  match outcome with
  | .success =>
      let task := { task with result := some (w.simulate task),
                              status := .completed }
      ({ w with current_task := none }, task)
  | .failure e =>
      let task := { task with status := .failed, error := some e }
      ({ w with current_task := none }, task)

/-- Mirrors `Worker.execute`.  In the source `self.current_task = task` is
followed by `task.status = IN_PROGRESS`; since `current_task` aliases the task
object, the observable value of `current_task` during execution is the task
with status `IN_PROGRESS`, which is what the embedding stores.  On the two
caught paths the final `self.current_task = None` and `return task` run
(`.ok`); on the `.base` path the exception propagates from inside the `try`
block and the statements after the `try`/`except` never run, so the worker is
returned with `current_task` still set (`.error` carries the worker state and
the exception). -/
def Worker.execute (w : Worker) (task : Task) (outcome : WorkOutcome) :
    Except (Worker × String) (Worker × Task) :=
  let task := { task with status := TaskStatus.in_progress }
  let w := { w with current_task := some task }
  match outcome with
  | .success => .ok (w.finishExec task .success)
  | .exn e => .ok (w.finishExec task (.failure e))
  | .base e => .error (w, e)

/-! ## Hierarchical orchestrator

The orchestrator runs one dispatch loop (`_worker_loop`) per worker under
asyncio's cooperative scheduler, so code between two `await` suspension
points runs atomically.  In this program the demo subscribers never suspend,
so the suspension points of one loop iteration are: the `wait_for` dequeue,
the `asyncio.sleep(1)` inside `worker.execute` (reached with `current_task`
already set), and the `asyncio.sleep(0.1)` after a capability mismatch.
A loop is therefore modelled by two kinds of atomic micro-steps:

* an idle worker's step: dequeue; on a capability match set `assigned_to`,
  publish the `task.assigned` event and enter `worker.execute` up to its
  suspension (setting `current_task`); on a mismatch re-enqueue the task at
  the tail; on an empty queue, a `TimeoutError` makes the loop spin;
* a busy worker's step: resume inside `worker.execute`, produce the terminal
  task, clear `current_task`, record the result and publish the
  `task.completed` event.

The asyncio interleaving is external nondeterminism and is passed in as an
explicit schedule: the list of indices of the loops that get the processor,
in order.  Bus deliveries of the orchestrator's events go to the demo's
non-failing logging subscribers and are modelled as an event log. -/

/-- One dispatch loop of the orchestrator: the worker it drives and the
loop's control position (`none`: suspended at the `wait_for` dequeue;
`some t`: suspended inside `worker.execute t`). -/
structure LoopState where
  worker : Worker
  busyWith : Option Task
deriving DecidableEq, Repr

/-- The shared state owned by `HierarchicalOrchestrator`: the task queue, the
results dict, the dispatch loops and the published-events log. -/
structure OrchState where
  queue : List Task
  results : List (String × Task)
  loops : List LoopState
  events : List (String × Message)
deriving DecidableEq, Repr

/-- The `task.assigned` event published before `worker.execute` is called. -/
def assignedMessage (task : Task) (w : Worker) : String × Message :=
  ("task.assigned",
    { type := .event
      source := "orchestrator"
      destination := w.id
      payload := .taskAssigned task.id w.id })

/-- The string `TaskStatus.value` of the Python enum. -/
def TaskStatus.value : TaskStatus → String
  | .pending => "pending"
  | .in_progress => "in_progress"
  | .completed => "completed"
  | .failed => "failed"

/-- The `task.completed` event published after `worker.execute` returns. -/
def completedMessage (task : Task) (w : Worker) : String × Message :=
  ("task.completed",
    { type := .event
      source := w.id
      destination := "orchestrator"
      payload := .taskCompleted task.id task.status.value })

/-- One atomic micro-step of dispatch loop `i` (see the section comment).
`oc` gives, per task id, the outcome of that task's `try` block in
`Worker.execute` (always one of the two caught outcomes: the cancellation
path cannot occur here because the orchestrator cancels loops only after the
workflow quiesces).  An index without a loop, or an idle loop facing an empty
queue (`TimeoutError`), leaves the state unchanged. -/
def microStep (oc : String → ExecOutcome) (st : OrchState) (i : Nat) :
    OrchState :=
  match st.loops[i]? with
  | none => st
  | some ls =>
      match ls.busyWith with
      | some t =>
          let ft := ls.worker.finishExec t (oc t.id)
          { st with
              loops := st.loops.set i ⟨ft.1, none⟩
              results := st.results ++ [(t.id, ft.2)]
              events := st.events ++ [completedMessage ft.2 ft.1] }
      | none =>
          match st.queue with
          | [] => st
          | task :: rest =>
              if task.name ∈ ls.worker.capabilities then
                let task := { task with assigned_to := some ls.worker.id }
                let taskIP := { task with status := TaskStatus.in_progress }
                { st with
                    queue := rest
                    loops := st.loops.set i
                      ⟨{ ls.worker with current_task := some taskIP },
                        some taskIP⟩
                    events := st.events ++ [assignedMessage task ls.worker] }
              else
                { st with queue := rest ++ [task] }

/-- Run a schedule of micro-steps. -/
def runSchedule (oc : String → ExecOutcome) (st : OrchState)
    (sched : List Nat) : OrchState :=
  sched.foldl (microStep oc) st

/-- The quiescence condition polled by `execute_workflow`:
`not self.task_queue.empty() or any(w.current_task for w in self.workers)`
is false, i.e. the queue is empty and every worker's `current_task` is
`None` (a `Task` object is always truthy). -/
def quiesced (st : OrchState) : Bool :=
  st.queue.isEmpty && st.loops.all fun ls => ls.worker.current_task.isNone

/-- The state at the start of `execute_workflow`: all tasks enqueued in
order, one freshly started dispatch loop per worker (each suspended at its
first dequeue), no results, no events. -/
def initState (workers : List Worker) (tasks : List Task) : OrchState :=
  { queue := tasks
    results := []
    loops := workers.map fun w => ⟨w, none⟩
    events := [] }

/-- Mirrors `HierarchicalOrchestrator.execute_workflow` over an explicit
asyncio interleaving `sched`: enqueue all tasks, start one loop per worker,
let the loops run, and when the polling wait observes quiescence cancel the
loops and return `list(self.results.values())` — the recorded terminal tasks
in insertion (completion) order.  If the run never reaches quiescence the
polling wait never exits and `execute_workflow` does not return (`none`). -/
def execute_workflow (oc : String → ExecOutcome) (sched : List Nat)
    (workers : List Worker) (tasks : List Task) : Option (List Task) :=
  let final := runSchedule oc (initState workers tasks) sched
  if quiesced final then some (final.results.map Prod.snd) else none

/-! ## Concrete scenarios used by the theorems -/

/-- A fresh `PENDING` task, as built by `Task(name=...)`. -/
def mkTask (i n : String) : Task :=
  { id := i, name := n }

/-- Worker with the single capability `research` (claim C4's configuration of
three workers with disjoint singleton capability sets). -/
def workerResearch : Worker :=
  { id := "researcher", capabilities := ["research"] }

/-- Worker with the single capability `analysis`. -/
def workerAnalysis : Worker :=
  { id := "analyst", capabilities := ["analysis"] }

/-- Worker with the single capability `reporting`. -/
def workerReport : Worker :=
  { id := "reporter", capabilities := ["reporting"] }

/-- The three-worker pool of claims C3 and C4. -/
def workers3 : List Worker :=
  [workerResearch, workerAnalysis, workerReport]

/-- The four-task workflow of claim C4: two `research` tasks, one `analysis`,
one `reporting`. -/
def tasks4 : List Task :=
  [mkTask "t1" "research", mkTask "t2" "research",
   mkTask "t3" "analysis", mkTask "t4" "reporting"]

/-- An interleaving mirroring the real timing of the demo run: the researcher
claims `t1`; the other two loops cycle the remaining tasks (0.1 s mismatch
sleeps) until each meets its matching task; the researcher finishes `t1` and
claims `t2` (1 s executions); then the three executions finish. -/
def sched4 : List Nat := [0, 1, 2, 1, 2, 1, 2, 0, 0, 1, 2, 0]

/-- Every task's `try` block completes normally (in the source the block only
sleeps and builds the result dict, so this is the demo behaviour). -/
def allSuccess : String → ExecOutcome := fun _ => .success

/-- A run in which task `t3`'s `try` block raises `RuntimeError("boom")`,
caught by `except Exception`. -/
def failT3 : String → ExecOutcome := fun tid =>
  if tid == "t3" then .failure "boom" else .success

/-- A task no worker in `workers3` has the capability for (claim C3). -/
def taskTranslation : Task := mkTask "t9" "translation"

/-- A capability named `x` (claim C1's first registration). -/
def capX : AgentCapability := { name := "x", version := "1.0" }

/-- A capability named `y` (claim C1's second registration). -/
def capY : AgentCapability := { name := "y", version := "1.0" }

/-- The registry after `register("a", [x])` followed by `register("a", [y])`:
same agent id, different capability lists. -/
def registryTwice : AgentRegistry :=
  (AgentRegistry.register
    (AgentRegistry.register {} "a" [capX] "ep" none 0).1
    "a" [capY] "ep" none 1).1

/-- The registry after `register("a", [x])` twice: same agent id, same
capability list both times. -/
def registryRepeat : AgentRegistry :=
  (AgentRegistry.register
    (AgentRegistry.register {} "a" [capX] "ep" none 0).1
    "a" [capX] "ep" none 1).1

/-- The bus of claim C2: topic `events` has a queue and, in subscription
order, a callback `s1` that raises on delivery and a well-behaved callback
`s2`. -/
def busTwoSubs : MessageBus :=
  (((MessageBus.create_queue {} "events").subscribe "events"
      ⟨"s1", true⟩).subscribe "events" ⟨"s2", false⟩)

/-- The same bus with only the well-behaved subscriber `s2`. -/
def busOneSub : MessageBus :=
  (MessageBus.create_queue {} "events").subscribe "events" ⟨"s2", false⟩

/-- A message published on the demo bus. -/
def msgHello : Message :=
  { type := .event, source := "demo", destination := "all",
    payload := .text "hello" }

/-- The per-worker invariant of claim C7: each dispatch loop's worker has
`current_task` equal to the loop's in-flight task — non-null exactly while
one execution is in flight, and then holding that single, non-terminal
(`IN_PROGRESS`) task. -/
def Agrees (st : OrchState) : Prop :=
  ∀ ls ∈ st.loops, ls.worker.current_task = ls.busyWith
    ∧ ∀ t ∈ ls.busyWith, t.status = TaskStatus.in_progress

/-- A task mid-execution (used to build a concrete busy state). -/
def taskBusy : Task :=
  { id := "t7", name := "research", assigned_to := some "researcher",
    status := .in_progress }

/-- A dispatch loop suspended inside `worker.execute taskBusy`. -/
def loopBusy : LoopState :=
  ⟨{ workerResearch with current_task := some taskBusy }, some taskBusy⟩

/-- A concrete orchestrator state with one busy loop. -/
def stBusy : OrchState :=
  { queue := [], results := [], loops := [loopBusy], events := [] }

/-- A capability whose constraint map is `region ↦ us` (claim C9). -/
def capUS : AgentCapability :=
  { name := "c", version := "1", constraints := [("region", "us")] }

/-- The registration stored for agent `alice` holding `capUS`. -/
def regUS : AgentRegistration :=
  { agent_id := "alice", capabilities := [capUS], endpoint := "ep",
    health_endpoint := "ep/health", registered_at := 0, last_heartbeat := 0,
    metadata := [] }

/-- A registry holding only `regUS`. -/
def registryC9 : AgentRegistry :=
  (AgentRegistry.register {} "alice" [capUS] "ep" none 0).1

/-! ## Helper lemmas -/

/-- Ordered-dict assignment stores the value under the key. -/
theorem lookup_dictSet {α : Type} (l : List (String × α)) (k : String)
    (v : α) : (dictSet l k v).lookup k = some v := by
  induction l with
  | nil => simp [dictSet, List.lookup]
  | cons p rest ih =>
      obtain ⟨k', v'⟩ := p
      unfold dictSet
      by_cases h : (k' == k) = true
      · simp [h, List.lookup_cons]
      · have hne : k' ≠ k := by simpa using h
        have h' : (k == k') = false := by
          simp only [beq_eq_false_iff_ne]
          exact fun hk => hne hk.symm
        simp [h, List.lookup_cons, h', ih]

/-- Both caught exits of `Worker.execute` clear the busy flag. -/
theorem finishExec_current_task (w : Worker) (t : Task) (o : ExecOutcome) :
    (w.finishExec t o).1.current_task = none := by
  cases o <;> rfl

/-- A single dispatch micro-step preserves the busy-flag invariant. -/
theorem microStep_agrees (oc : String → ExecOutcome) (st : OrchState)
    (i : Nat) (h : Agrees st) : Agrees (microStep oc st i) := by
  unfold microStep
  split
  · exact h
  · rename_i ls hl
    split
    · rename_i t hb
      intro ls' hmem
      simp only at hmem
      rcases List.mem_or_eq_of_mem_set hmem with hm | he
      · exact h ls' hm
      · subst he
        refine ⟨finishExec_current_task _ _ _, ?_⟩
        intro t' ht'
        simp [Option.mem_def] at ht'
    · rename_i hb
      split
      · exact h
      · rename_i task rest hq
        split
        · intro ls' hmem
          simp only at hmem
          rcases List.mem_or_eq_of_mem_set hmem with hm | he
          · exact h ls' hm
          · subst he
            refine ⟨rfl, ?_⟩
            intro t' ht'
            simp only [Option.mem_def, Option.some.injEq] at ht'
            subst ht'
            rfl
        · intro ls' hmem
          exact h ls' hmem

/-- From the state holding only the unroutable `translation` task, every
micro-step of every loop returns to the same state: each worker dequeues the
task, fails the capability check and re-enqueues it. -/
theorem microStep_translation_fixed (oc : String → ExecOutcome) (i : Nat) :
    microStep oc (initState workers3 [taskTranslation]) i
      = initState workers3 [taskTranslation] := by
  match i with
  | 0 => rfl
  | 1 => rfl
  | 2 => rfl
  | n + 3 =>
      unfold microStep
      have h : (initState workers3 [taskTranslation]).loops[n + 3]? = none := by
        apply List.getElem?_eq_none
        simp [initState, workers3]
      rw [h]

/-! ## The claims -/

/-- C1: the claim states that after `register("a", [x])` then
`register("a", [y])` exactly one registration remains, reflecting the latest
call, and that `discover(c)` returns `"a"` exactly when `c` is in the latest
capability list — never via a capability only in the earlier call, and never
with duplicates.  The code violates the discovery half: `register` replaces
`_agents[agent_id]` but only appends to `_capability_index`, so the stale
entry `x ↦ a` survives and `discover("x")` still returns agent `a`
(conjunct 3), and repeating a registration with the same capability
duplicates the index entry, so `discover("x")` returns `a` twice
(conjunct 4).  Conjuncts 1–2 verify the half of the claim the code does
satisfy: a single registration holding only the latest capability list. -/
theorem stale_capability_index :
    (registryTwice.agents.map Prod.fst = ["a"])
    ∧ ((registryTwice.agents.lookup "a").map
        (fun r => r.capabilities.map AgentCapability.name) = some ["y"])
    ∧ ((registryTwice.discover "x" none).map AgentRegistration.agent_id
        = ["a"])
    ∧ ((registryRepeat.discover "x" none).map AgentRegistration.agent_id
        = ["a", "a"]) := by
  decide

/-- C2: the claim states that a raising earlier-subscribed callback never
prevents delivery to the remaining subscribers nor the queue enqueue.  The
code has no exception handling around the subscriber loop, so the exception
propagates out of `publish`: with the failing `s1` subscribed before the
well-behaved `s2` and a queue present, `publish` raises with an empty
delivery log — `s2` never receives the message and nothing is enqueued
(conjunct 1).  With `s2` alone the same publish delivers to it and enqueues
(conjunct 2), showing the abort is caused by the sibling failure. -/
theorem failing_subscriber_aborts_delivery :
    (MessageBus.publish busTwoSubs "events" msgHello = .error [])
    ∧ (MessageBus.publish busOneSub "events" msgHello
        = .ok ({ subscribers := busOneSub.subscribers,
                 queues := [("events", [msgHello])] },
               [("s2", msgHello)])) :=
  ⟨rfl, rfl⟩

/-- C5: `Worker.execute` never propagates an internal failure (a Python
`Exception`, the class `except Exception` catches) to its caller: on any
such failure it returns the task with status `FAILED` and `error` populated
with the description, and on normal completion it returns the task with
status `COMPLETED` and `result` populated. -/
theorem execute_captures_failures (w : Worker) (task : Task) (e : String) :
    (∃ w' t', w.execute task .success = .ok (w', t')
      ∧ t'.status = .completed ∧ t'.result.isSome = true)
    ∧ (∃ w' t', w.execute task (.exn e) = .ok (w', t')
      ∧ t'.status = .failed ∧ t'.error = some e) :=
  ⟨⟨_, _, rfl, rfl, rfl⟩, ⟨_, _, rfl, rfl, rfl⟩⟩

/-- C6: the claim states that `current_task` is cleared on *every* exit path
of `Worker.execute`.  The code clears it only on the two caught paths: the
clearing statement sits after the `try`/`except Exception` block instead of
in a `finally`, so an exit by a `BaseException` that is not an `Exception`
(such as `asyncio.CancelledError`, which the orchestrator's `wt.cancel()`
injects at the `await` inside the block) propagates before the clear runs
and leaves `current_task` still holding the in-progress task. -/
theorem cancellation_skips_current_task_clear (w : Worker) (task : Task)
    (e : String) :
    ∃ w', w.execute task (.base e) = .error (w', e)
      ∧ w'.current_task = some { task with status := TaskStatus.in_progress }
      ∧ w'.current_task.isSome = true :=
  ⟨_, rfl, rfl, rfl⟩

/-- C10: every call to `register` stores a registration whose
`health_endpoint` is the endpoint with `"/health"` appended and whose
`metadata` is the given map, or the empty map when omitted (`metadata or`
the empty dict). -/
theorem register_health_endpoint_and_metadata (r : AgentRegistry)
    (agentId : String) (caps : List AgentCapability) (endpoint : String)
    (metadata : Option (List (String × String))) (now : Nat) :
    ((r.register agentId caps endpoint metadata now).1.agents.lookup agentId)
      = some { agent_id := agentId
               capabilities := caps
               endpoint := endpoint
               health_endpoint := endpoint ++ "/health"
               registered_at := now
               last_heartbeat := now
               metadata := metadata.getD [] } := by
  unfold AgentRegistry.register
  exact lookup_dictSet _ _ _

/-- C3: the claim states that a workflow holding a task whose name is in no
worker's capability set must not hang forever — some bound (deadline,
poison-queue, or reject-unroutable) must end the oscillation.  The code
implements no such bound: with the three demo workers and the `translation`
task, every micro-step of every loop under *every* interleaving returns the
state to itself (dequeue, capability mismatch, re-enqueue), the quiescence
condition never holds, and `execute_workflow` never returns. -/
theorem unroutable_task_never_quiesces (oc : String → ExecOutcome)
    (sched : List Nat) :
    execute_workflow oc sched workers3 [taskTranslation] = none := by
  have hfix : runSchedule oc (initState workers3 [taskTranslation]) sched
      = initState workers3 [taskTranslation] := by
    induction sched with
    | nil => rfl
    | cons a l ih =>
        unfold runSchedule at ih ⊢
        rw [List.foldl_cons, microStep_translation_fixed, ih]
  simp only [execute_workflow, hfix]
  rfl

/-- C4: with the three disjoint singleton-capability workers and the four
demo tasks (two `research`, one `analysis`, one `reporting`), the workflow
run under the interleaving that mirrors the demo's real timing reaches
quiescence, and `execute_workflow` returns exactly the four submitted tasks,
every one `COMPLETED`, each assigned to a worker whose capability set
contains the task's name. -/
theorem workflow_completes_four_tasks :
    (execute_workflow allSuccess sched4 workers3 tasks4).isSome = true
    ∧ ((execute_workflow allSuccess sched4 workers3 tasks4).getD []).map
        Task.id = ["t1", "t3", "t4", "t2"]
    ∧ ∀ t ∈ (execute_workflow allSuccess sched4 workers3 tasks4).getD [],
        t.status = TaskStatus.completed
        ∧ ∃ w ∈ workers3, t.assigned_to = some w.id
            ∧ t.name ∈ w.capabilities := by
  decide

/-- C7: under every interleaving of the dispatch loops, every worker's
`current_task` stays equal to its loop's in-flight task: it is non-null only
while exactly one execution is in flight on that worker, it then holds
exactly that single non-terminal (`IN_PROGRESS`) task, and no worker ever
holds two tasks at once. -/
theorem at_most_one_task_in_flight (oc : String → ExecOutcome)
    (init : OrchState) (sched : List Nat) (h : Agrees init) :
    Agrees (runSchedule oc init sched) := by
  induction sched generalizing init with
  | nil => exact h
  | cons a l ih =>
      unfold runSchedule at ih ⊢
      rw [List.foldl_cons]
      exact ih _ (microStep_agrees oc init a h)

/-- Witness for C7 at the demo configuration and schedule. -/
theorem at_most_one_task_in_flight_witness :
    Agrees (initState workers3 tasks4)
    ∧ Agrees (runSchedule allSuccess (initState workers3 tasks4) sched4) := by
  have h0 : Agrees (initState workers3 tasks4) := by
    intro ls hls
    simp only [initState, workers3, List.map_cons, List.map_nil,
      List.mem_cons, List.not_mem_nil, or_false] at hls
    rcases hls with h | h | h <;> subst h <;>
      exact ⟨rfl, by intro t ht; simp [Option.mem_def] at ht⟩
  exact ⟨h0, at_most_one_task_in_flight allSuccess _ sched4 h0⟩

/-- C9: for a nonempty constraint query `q`, `discover` keeps exactly the
registrations passing `_matches_constraints`, and `_matches_constraints`
holds iff at least one capability of the registration superset-matches `q` —
every key/value pair of `q` equals that one capability's own constraint
value for that key: an OR across the registration's capabilities, never an
AND combining keys from different capabilities. -/
theorem discover_constraint_matching (r : AgentRegistry) (c : String)
    (q : List (String × String)) (a : AgentRegistration) (hq : q ≠ []) :
    (r.discover c (some q)
      = (r.discover c none).filter fun x =>
          AgentRegistry.matches_constraints x q)
    ∧ (AgentRegistry.matches_constraints a q = true
      ↔ ∃ cap ∈ a.capabilities, ∀ kv ∈ q,
          cap.constraints.lookup kv.1 = some kv.2) := by
  constructor
  · unfold AgentRegistry.discover
    cases hc : r.capability_index.lookup c with
    | none => simp
    | some ids =>
        have hne : q.isEmpty = false := by simpa using hq
        simp [hne]
  · unfold AgentRegistry.matches_constraints
    simp only [List.any_eq_true, List.all_eq_true, beq_iff_eq]

/-- Witness for C9 at a concrete registry and query. -/
theorem discover_constraint_matching_witness :
    ([("region", "us")] : List (String × String)) ≠ []
    ∧ ((registryC9.discover "c" (some [("region", "us")])
        = (registryC9.discover "c" none).filter fun x =>
            AgentRegistry.matches_constraints x [("region", "us")])
      ∧ (AgentRegistry.matches_constraints regUS [("region", "us")] = true
        ↔ ∃ cap ∈ regUS.capabilities, ∀ kv ∈ [("region", "us")],
            cap.constraints.lookup kv.1 = some kv.2)) :=
  ⟨by decide,
    discover_constraint_matching registryC9 "c" [("region", "us")] regUS
      (by decide)⟩

/-- C8: a task whose execution ends `FAILED` is stored in the results map by
the very same step shape as a `COMPLETED` one — the finishing micro-step
appends one `(task.id, terminal task)` entry whatever the outcome, with
status `FAILED` and the error set on failure and `COMPLETED` on success —
and it aborts nothing: the queue and every other loop are untouched and the
finishing loop returns to idle.  Concretely, the demo run in which `t3`'s
execution raises still quiesces and `execute_workflow` returns all four
terminal tasks in completion (results-insertion) order, the failed one among
them with its error recorded. -/
theorem failed_task_recorded_like_completed (st : OrchState) (i : Nat)
    (ls : LoopState) (t : Task) (oc : String → ExecOutcome)
    (h1 : st.loops[i]? = some ls) (h2 : ls.busyWith = some t) :
    (∃ t', (microStep oc st i).results = st.results ++ [(t.id, t')]
      ∧ (∀ e, oc t.id = .failure e → t'.status = .failed ∧ t'.error = some e)
      ∧ (oc t.id = .success → t'.status = .completed))
    ∧ (microStep oc st i).queue = st.queue
    ∧ (∀ j, j ≠ i → (microStep oc st i).loops[j]? = st.loops[j]?)
    ∧ (∃ w', (microStep oc st i).loops[i]? = some ⟨w', none⟩)
    ∧ (execute_workflow failT3 sched4 workers3 tasks4).isSome = true
    ∧ ((execute_workflow failT3 sched4 workers3 tasks4).getD []).map
        (fun u => (u.id, u.status))
      = [("t1", .completed), ("t3", .failed), ("t4", .completed),
         ("t2", .completed)]
    ∧ (∀ u ∈ (execute_workflow failT3 sched4 workers3 tasks4).getD [],
        u.id = "t3" → u.error = some "boom") := by
  have hstep : microStep oc st i = { st with
      loops := st.loops.set i ⟨(ls.worker.finishExec t (oc t.id)).1, none⟩
      results := st.results ++ [(t.id, (ls.worker.finishExec t (oc t.id)).2)]
      events := st.events ++
        [completedMessage (ls.worker.finishExec t (oc t.id)).2
          (ls.worker.finishExec t (oc t.id)).1] } := by
    simp only [microStep, h1, h2]
  have hlt : i < st.loops.length := by
    rcases List.getElem?_eq_some.mp h1 with ⟨hl, _⟩
    exact hl
  refine ⟨⟨(ls.worker.finishExec t (oc t.id)).2, ?_, ?_, ?_⟩, ?_, ?_, ?_,
    by decide, by decide, by decide⟩
  · rw [hstep]
  · intro e he
    rw [he]
    exact ⟨rfl, rfl⟩
  · intro he
    rw [he]
    rfl
  · rw [hstep]
  · intro j hj
    rw [hstep]
    exact List.getElem?_set_ne (Ne.symm hj)
  · refine ⟨(ls.worker.finishExec t (oc t.id)).1, ?_⟩
    rw [hstep]
    exact List.getElem?_set_self hlt

/-- Witness for C8 at a concrete busy state. -/
theorem failed_task_recorded_like_completed_witness :
    (stBusy.loops[0]? = some loopBusy ∧ loopBusy.busyWith = some taskBusy)
    ∧ ((∃ t', (microStep allSuccess stBusy 0).results
          = stBusy.results ++ [(taskBusy.id, t')]
        ∧ (∀ e, allSuccess taskBusy.id = .failure e →
            t'.status = .failed ∧ t'.error = some e)
        ∧ (allSuccess taskBusy.id = .success → t'.status = .completed))
      ∧ (microStep allSuccess stBusy 0).queue = stBusy.queue
      ∧ (∀ j, j ≠ 0 →
          (microStep allSuccess stBusy 0).loops[j]? = stBusy.loops[j]?)
      ∧ (∃ w', (microStep allSuccess stBusy 0).loops[0]? = some ⟨w', none⟩)
      ∧ (execute_workflow failT3 sched4 workers3 tasks4).isSome = true
      ∧ ((execute_workflow failT3 sched4 workers3 tasks4).getD []).map
          (fun u => (u.id, u.status))
        = [("t1", .completed), ("t3", .failed), ("t4", .completed),
           ("t2", .completed)]
      ∧ (∀ u ∈ (execute_workflow failT3 sched4 workers3 tasks4).getD [],
          u.id = "t3" → u.error = some "boom")) :=
  ⟨⟨by decide, by decide⟩,
    failed_task_recorded_like_completed stBusy 0 loopBusy taskBusy allSuccess
      (by decide) (by decide)⟩

end AgenticPatterns
